import Mathlib

/-!
Verification of the readera EPUB reader orchestration layer (src/src/App.tsx).

The TypeScript source is shallowly embedded: JavaScript strings become
Lean Strings (lists of characters), optional / possibly-undefined values
become Option, JavaScript numbers become rationals (with an explicit
constructor for the non-finite values NaN and the infinities), and the
React component state becomes an explicit AppState record threaded
through the event handlers.  Engine (epubjs) calls are recorded in an
explicit event trace so that resource-lifecycle properties can be
stated.
-/

namespace Readera

/-! ## String helpers

JavaScript primitives used by App.tsx: String.prototype.split with a
one-character separator, String.prototype.trim, and the falsy-coalescing
idiom a or-else b. -/

/-- JavaScript s.split(sep) for a single-character separator: splits the
character list at every occurrence of sep; the empty string splits to
one empty component, matching JS semantics. -/
def splitOnChar (sep : Char) : List Char → List (List Char)
  | [] => [[]]
  | c :: cs =>
    if c = sep then
      [] :: splitOnChar sep cs
    else
      match splitOnChar sep cs with
      | [] => [[c]]
      | h :: t => (c :: h) :: t

/-- JavaScript String.prototype.trim: drop whitespace from both ends. -/
def jsTrim (s : String) : String :=
  String.mk (((s.data.dropWhile Char.isWhitespace).reverse.dropWhile Char.isWhitespace).reverse)

/-- The JavaScript falsy-coalescing idiom a || b restricted to strings:
the empty string is falsy. -/
def jsOr (a b : String) : String := if a = "" then b else a

/-- App.tsx line 122: normalizeHref = (href?: string) => (href ? href.split('#')[0] : '').
An absent or empty href is falsy and yields the empty string; otherwise the
part of the string before the first '#' is returned. -/
def normalizeHref (href : Option String) : String :=
  match href with
  | some s => if s = "" then "" else String.mk ((splitOnChar '#' s.data).headD [])
  | none => ""

theorem splitOnChar_ne_nil (sep : Char) (l : List Char) : splitOnChar sep l ≠ [] := by
  cases l with
  | nil => simp [splitOnChar]
  | cons c cs =>
    simp only [splitOnChar]
    split
    · simp
    · split
      · simp
      · simp

theorem headD_splitOnChar (sep : Char) (l : List Char) :
    (splitOnChar sep l).headD [] = l.takeWhile (fun c => c != sep) := by
  induction l with
  | nil => rfl
  | cons c cs ih =>
    simp only [splitOnChar]
    by_cases h : c = sep
    · subst h
      simp [List.takeWhile_cons]
    · rw [if_neg h]
      have hcs := splitOnChar_ne_nil sep cs
      have hne : (c != sep) = true := by simp [h]
      cases hs : splitOnChar sep cs with
      | nil => exact absurd hs hcs
      | cons a t =>
        rw [hs] at ih
        simp only [List.headD] at ih
        simp [List.takeWhile_cons, hne, ← ih]

theorem normalizeHref_data (s : String) (hs : s ≠ "") :
    (normalizeHref (some s)).data = s.data.takeWhile (fun c => c != '#') := by
  show (if s = "" then "" else String.mk ((splitOnChar '#' s.data).headD [])).data = _
  rw [if_neg hs]
  exact headD_splitOnChar '#' s.data

theorem normalizeHref_no_hash (href : Option String) : '#' ∉ (normalizeHref href).data := by
  match href with
  | none => simp [normalizeHref]
  | some s =>
    by_cases hs : s = ""
    · simp [normalizeHref, hs]
    · rw [normalizeHref_data s hs]
      intro hmem
      have := List.mem_takeWhile_imp hmem
      simp at this

/-- Claim C5: locator normalization is idempotent — normalizing an
already-normalized locator is the identity — and on the spec's concrete
examples, a fragment suffix is stripped and the empty string maps to
itself. -/
theorem C5_normalizeHref_idempotent :
    (∀ x : String, normalizeHref (some (normalizeHref (some x))) = normalizeHref (some x)) ∧
    normalizeHref (some "chap3.xhtml#section2") = "chap3.xhtml" ∧
    normalizeHref (some "") = "" := by
  refine ⟨?_, by decide, by decide⟩
  intro x
  by_cases hx : x = ""
  · subst hx
    simp [normalizeHref]
  · by_cases hr : normalizeHref (some x) = ""
    · rw [hr]
      simp [normalizeHref]
    · apply String.ext
      rw [normalizeHref_data _ hr, normalizeHref_data _ hx]
      apply List.takeWhile_eq_self_iff.mpr
      intro c hc
      have h2 := List.mem_takeWhile_imp hc
      simpa using h2

/-! ## Navigation tree and TOC flattening (App.tsx lines 206-217) -/

/-- epubjs NavItem: a node of the hierarchical navigation tree.  An
absent subitems array is modelled as the empty list. -/
inductive NavItem : Type where
  | mk (id : String) (label : String) (href : String) (subitems : List NavItem)

def NavItem.id : NavItem → String
  | .mk i _ _ _ => i

def NavItem.label : NavItem → String
  | .mk _ l _ _ => l

def NavItem.href : NavItem → String
  | .mk _ _ h _ => h

def NavItem.subitems : NavItem → List NavItem
  | .mk _ _ _ s => s

/-- TocEntry = NavItem and { depth: number } (App.tsx line 6): the spread
of a NavItem together with its materialised depth. -/
structure TocEntry where
  id : String
  label : String
  href : String
  subitems : List NavItem
  depth : Nat

/-- App.tsx lines 207-214: the inner flatten of tocItems.  The source
folds over the sibling array, pushing the entry itself and then, when
the subitems array is non-empty, the recursively flattened subitems at
depth + 1; the fold-with-push is rendered as list concatenation. -/
def flatten : List NavItem → Nat → List TocEntry
  | [], _ => []
  | NavItem.mk i l h subs :: rest, depth =>
    ({ id := i, label := l, href := h, subitems := subs, depth := depth } ::
      (if subs.length > 0 then flatten subs (depth + 1) else [])) ++ flatten rest depth

/-- Spec-side definition (section 4.2 of the spec, for comparison with
flatten): pre-order traversal in which each node is emitted before its
descendants, a child is traversed at its parent's depth plus one, and
siblings keep their source order. -/
def preorderFlattenSpec : List NavItem → Nat → List TocEntry
  | [], _ => []
  | NavItem.mk i l h subs :: rest, depth =>
    { id := i, label := l, href := h, subitems := subs, depth := depth } ::
      (preorderFlattenSpec subs (depth + 1) ++ preorderFlattenSpec rest depth)

/-- Total node count of a navigation forest, across all levels. -/
def countNodes : List NavItem → Nat
  | [] => 0
  | NavItem.mk _ _ _ subs :: rest => 1 + countNodes subs + countNodes rest

theorem flatten_eq_preorder (items : List NavItem) (d : Nat) :
    flatten items d = preorderFlattenSpec items d := by
  have H : ∀ (n : Nat) (items : List NavItem) (d : Nat), sizeOf items ≤ n →
      flatten items d = preorderFlattenSpec items d := by
    intro n
    induction n with
    | zero =>
      intro items d h
      cases items with
      | nil => simp [flatten, preorderFlattenSpec]
      | cons item rest => simp [List.cons.sizeOf_spec] at h
    | succ n ih =>
      intro items d h
      cases items with
      | nil => simp [flatten, preorderFlattenSpec]
      | cons item rest =>
        cases item with
        | mk i l hh subs =>
          have hsz : 1 + (1 + sizeOf i + sizeOf l + sizeOf hh + sizeOf subs) + sizeOf rest ≤ n + 1 := by
            simpa [List.cons.sizeOf_spec, NavItem.mk.sizeOf_spec] using h
          have h1 : sizeOf subs ≤ n := by omega
          have h2 : sizeOf rest ≤ n := by omega
          simp only [flatten, preorderFlattenSpec]
          by_cases hs : subs.length > 0
          · rw [if_pos hs, ih subs (d + 1) h1, ih rest d h2]
            simp
          · rw [if_neg hs]
            have hnil : subs = [] := by
              cases subs with
              | nil => rfl
              | cons a t => simp at hs
            subst hnil
            rw [ih rest d h2]
            simp [preorderFlattenSpec]
  exact H (sizeOf items) items d le_rfl

theorem preorder_length (items : List NavItem) (d : Nat) :
    (preorderFlattenSpec items d).length = countNodes items := by
  have H : ∀ (n : Nat) (items : List NavItem) (d : Nat), sizeOf items ≤ n →
      (preorderFlattenSpec items d).length = countNodes items := by
    intro n
    induction n with
    | zero =>
      intro items d h
      cases items with
      | nil => simp [preorderFlattenSpec, countNodes]
      | cons item rest => simp [List.cons.sizeOf_spec] at h
    | succ n ih =>
      intro items d h
      cases items with
      | nil => simp [preorderFlattenSpec, countNodes]
      | cons item rest =>
        cases item with
        | mk i l hh subs =>
          have hsz : 1 + (1 + sizeOf i + sizeOf l + sizeOf hh + sizeOf subs) + sizeOf rest ≤ n + 1 := by
            simpa [List.cons.sizeOf_spec, NavItem.mk.sizeOf_spec] using h
          have h1 : sizeOf subs ≤ n := by omega
          have h2 : sizeOf rest ≤ n := by omega
          simp only [preorderFlattenSpec, countNodes, List.length_cons, List.length_append,
            ih subs (d + 1) h1, ih rest d h2]
          omega
  exact H (sizeOf items) items d le_rfl

/-- Claim C3: flatten is a pre-order traversal — it coincides with the
canonical pre-order flattening in which top-level entries get depth 0,
every child is emitted at its parent's depth plus one directly after
its parent, and sibling order is the source order — and its output
length is the total node count across all levels. -/
theorem C3_flatten_preorder (items : List NavItem) :
    flatten items 0 = preorderFlattenSpec items 0 ∧
    (flatten items 0).length = countNodes items := by
  refine ⟨flatten_eq_preorder items 0, ?_⟩
  rw [flatten_eq_preorder items 0]
  exact preorder_length items 0

/-! ## Chapter resolution (App.tsx lines 219-231) -/

/-- App.tsx lines 219-231: resolveChapterTitle.  The component closes
over tocItems (the flattened TOC); it is made an explicit argument.
Source: if (!href || !tocItems.length) return ''; normalized =
normalizeHref(href); match = tocItems.find(item => normalizeHref(item.href)
=== normalized); return match?.label?.trim() || ''. -/
def resolveChapterTitle (href : Option String) (tocItems : List TocEntry) : String :=
  if href.getD "" = "" ∨ tocItems.length = 0 then ""
  else
    let normalized := normalizeHref href
    match tocItems.find? (fun item => normalizeHref (some item.href) == normalized) with
    | some m => jsOr (jsTrim m.label) ""
    | none => ""

theorem jsOr_empty_right (a : String) : jsOr a "" = a := by
  unfold jsOr
  split
  · simp [*]
  · rfl

/-- Claim C4: resolveChapterTitle strips the fragment from the locator,
returns the trimmed label of the first flattened entry whose similarly
normalized locator is exactly equal, and returns the empty string when
no entry matches (no fuzzy or ancestor fallback), when the locator is
empty, or when the flattened TOC is empty. -/
theorem C4_resolveChapterTitle_spec :
    (∀ (href : String) (toc : List TocEntry) (m : TocEntry),
      href ≠ "" →
      toc.find? (fun item => normalizeHref (some item.href) == normalizeHref (some href)) = some m →
      resolveChapterTitle (some href) toc = jsTrim m.label) ∧
    (∀ (href : String) (toc : List TocEntry),
      toc.find? (fun item => normalizeHref (some item.href) == normalizeHref (some href)) = none →
      resolveChapterTitle (some href) toc = "") ∧
    (∀ toc : List TocEntry, resolveChapterTitle (some "") toc = "") ∧
    (∀ href : Option String, resolveChapterTitle href [] = "") := by
  refine ⟨?_, ?_, ?_, ?_⟩
  · intro href toc m hhref hfind
    have htoc : toc.length ≠ 0 := by
      intro h0
      rw [List.length_eq_zero.mp h0] at hfind
      simp [List.find?] at hfind
    unfold resolveChapterTitle
    rw [if_neg (by simp [hhref, htoc])]
    simp only [hfind, jsOr_empty_right]
  · intro href toc hfind
    unfold resolveChapterTitle
    split
    · rfl
    · simp only [hfind]
  · intro toc
    unfold resolveChapterTitle
    rw [if_pos (by simp)]
  · intro href
    unfold resolveChapterTitle
    rw [if_pos (by simp)]

/-- The flattened TOC of the spec's chapter-resolution example. -/
def tocDemo : List TocEntry :=
  [{ id := "i1", label := "Intro", href := "a.xhtml", subitems := [], depth := 0 },
   { id := "i2", label := "Ch1", href := "b.xhtml#x", subitems := [], depth := 0 }]

/-- Witness for C4 on the spec's example: a locator with a different
fragment still resolves to the chapter whose normalized href matches, a
missing locator resolves to the empty string, and the empty locator
resolves to the empty string. -/
theorem C4_resolveChapterTitle_witness :
    resolveChapterTitle (some "b.xhtml#y") tocDemo = "Ch1" ∧
    resolveChapterTitle (some "missing.xhtml") tocDemo = "" ∧
    resolveChapterTitle (some "") tocDemo = "" :=
  ⟨(C4_resolveChapterTitle_spec.1 "b.xhtml#y" tocDemo
      { id := "i2", label := "Ch1", href := "b.xhtml#x", subitems := [], depth := 0 }
      (by decide) rfl).trans (by decide),
   C4_resolveChapterTitle_spec.2.1 "missing.xhtml" tocDemo rfl,
   C4_resolveChapterTitle_spec.2.2.1 tocDemo⟩

/-! ## Font-stack resolution (App.tsx lines 16-72, 114-115, 148-153) -/

/-- App.tsx FontOption (the style field, which never feeds the reader
typography pipeline, is omitted). -/
structure FontOption where
  id : String
  label : String
  stack : String
  deriving DecidableEq

/-- App.tsx lines 16-72: FONT_OPTIONS, the built-in font options. -/
def FONT_OPTIONS : List FontOption :=
  [{ id := "reader-sans", label := "Clean Sans",
     stack := "\"Inter\", \"Segoe UI\", system-ui, -apple-system, BlinkMacSystemFont, \"Helvetica Neue\", sans-serif" },
   { id := "reader-serif", label := "Bookish Serif",
     stack := "\"Literata\", \"Merriweather\", \"Georgia\", \"Times New Roman\", serif" },
   { id := "editorial-serif", label := "Editorial Serif",
     stack := "\"Newsreader\", \"Iowan Old Style\", \"Baskerville\", serif" },
   { id := "mono", label := "Mono",
     stack := "\"IBM Plex Mono\", \"Source Code Pro\", \"SFMono-Regular\", monospace" },
   { id := "reader-devanagari", label := "Harmony (English + Marathi + Hindi)",
     stack := "kalam" }]

/-- App.tsx line 114. -/
def CUSTOM_FONT_ID : String := "custom"

/-- App.tsx line 115: DEFAULT_FONT_STACK = FONT_OPTIONS[0].stack. -/
def DEFAULT_FONT_STACK : String := (FONT_OPTIONS.headD { id := "", label := "", stack := "" }).stack

/-- App.tsx lines 148-153: the activeFontStack memo.  Source: if
(fontChoice === CUSTOM_FONT_ID) return customFont.trim() ||
DEFAULT_FONT_STACK; return FONT_OPTIONS.find(o => o.id ===
fontChoice)?.stack || DEFAULT_FONT_STACK. -/
def activeFontStack (fontChoice customFont : String) : String :=
  if fontChoice = CUSTOM_FONT_ID then
    jsOr (jsTrim customFont) DEFAULT_FONT_STACK
  else
    jsOr (((FONT_OPTIONS.find? (fun option => option.id == fontChoice)).map FontOption.stack).getD "")
      DEFAULT_FONT_STACK

theorem FONT_OPTIONS_stacks_ne_empty : ∀ o ∈ FONT_OPTIONS, o.stack ≠ "" := by decide

/-- Claim C7: when the custom font option is selected, the resolved stack
is the trimmed custom text when non-empty and otherwise the first
built-in stack, never the empty string; when a built-in id is selected,
the resolved stack is that option's stack, or the first built-in stack
when the id matches no option. -/
theorem C7_activeFontStack_spec :
    (∀ customFont : String, jsTrim customFont ≠ "" →
      activeFontStack CUSTOM_FONT_ID customFont = jsTrim customFont) ∧
    (∀ customFont : String, jsTrim customFont = "" →
      activeFontStack CUSTOM_FONT_ID customFont = (FONT_OPTIONS.headD { id := "", label := "", stack := "" }).stack) ∧
    (∀ customFont : String, activeFontStack CUSTOM_FONT_ID customFont ≠ "") ∧
    (∀ (choice customFont : String) (o : FontOption), choice ≠ CUSTOM_FONT_ID →
      FONT_OPTIONS.find? (fun option => option.id == choice) = some o →
      activeFontStack choice customFont = o.stack) ∧
    (∀ choice customFont : String, choice ≠ CUSTOM_FONT_ID →
      FONT_OPTIONS.find? (fun option => option.id == choice) = none →
      activeFontStack choice customFont = DEFAULT_FONT_STACK) := by
  have hdef : DEFAULT_FONT_STACK ≠ "" := by decide
  refine ⟨?_, ?_, ?_, ?_, ?_⟩
  · intro customFont h
    simp [activeFontStack, jsOr, h]
  · intro customFont h
    simp [activeFontStack, jsOr, h]
    rfl
  · intro customFont
    by_cases h : jsTrim customFont = ""
    · simp [activeFontStack, jsOr, h]
      exact hdef
    · simp [activeFontStack, jsOr, h]
  · intro choice customFont o hc hfind
    have ho : o.stack ≠ "" := FONT_OPTIONS_stacks_ne_empty o (List.mem_of_find?_eq_some hfind)
    simp [activeFontStack, hc, hfind, jsOr, ho]
  · intro choice customFont hc hfind
    simp [activeFontStack, hc, hfind, jsOr]

/-- Witness for C7: the custom option with blank custom text resolves to
the first built-in stack; the mono option resolves to its own stack; an
unknown id falls back to the default stack. -/
theorem C7_activeFontStack_witness :
    activeFontStack CUSTOM_FONT_ID "   " = (FONT_OPTIONS.headD { id := "", label := "", stack := "" }).stack ∧
    activeFontStack "mono" ""
      = "\"IBM Plex Mono\", \"Source Code Pro\", \"SFMono-Regular\", monospace" ∧
    activeFontStack "missing-id" "" = DEFAULT_FONT_STACK :=
  ⟨C7_activeFontStack_spec.2.1 "   " (by decide),
   C7_activeFontStack_spec.2.2.2.1 "mono" ""
     { id := "mono", label := "Mono",
       stack := "\"IBM Plex Mono\", \"Source Code Pro\", \"SFMono-Regular\", monospace" }
     (by decide) (by decide),
   C7_activeFontStack_spec.2.2.2.2 "missing-id" "" (by decide) (by decide)⟩

/-! ## Application state and engine interaction model

The React component state (App.tsx lines 126-139) becomes an explicit
record; book and rendition handles become session identifiers (numbered
by construction order).  JavaScript numbers coming back from the engine
are rationals extended with the non-finite values.  Engine calls are
recorded in an event trace. -/

/-- A JavaScript number: a finite rational or one of the non-finite
values (NaN, Infinity, -Infinity). -/
inductive JsNumber where
  | finite (val : ℚ)
  | nan
  | posInf
  | negInf
  deriving DecidableEq

def JsNumber.isFinite : JsNumber → Bool
  | .finite _ => true
  | _ => false

/-- Number((q).toFixed(1)): round to one decimal place.  ECMAScript
toFixed picks the integer n minimising the distance of n / 10 to the
value, taking the larger n on ties. -/
def toFixed1 (q : ℚ) : ℚ := ((⌊q * 10 + 1 / 2⌋ : ℤ) : ℚ) / 10

/-- Component state of App (App.tsx lines 126-139).  book and rendition
hold the session identifier of the currently published handles;
locations is book.locations.length() for the current book. -/
structure AppState where
  book : Option Nat
  rendition : Option Nat
  toc : List NavItem
  progress : ℚ
  currentChapter : String
  fileName : String
  loading : Bool
  error : Option String
  activeHref : String
  locations : Nat

/-- The useState initial values: no book, empty TOC, progress 0, empty
strings, not loading, no error. -/
def initialState : AppState :=
  { book := none, rendition := none, toc := [], progress := 0, currentChapter := "",
    fileName := "", loading := false, error := none, activeHref := "", locations := 0 }

/-- Engine (epubjs) calls made by the component, with the session
identifier they act on. -/
inductive Event where
  | destroyRendition (sid : Nat)
  | destroyBook (sid : Nat)
  | constructBook (sid : Nat)
  | constructRendition (sid : Nat)
  | applyFontSizeTo (sid : Nat)
  | displayInitial (sid : Nat)
  | fetchNav (sid : Nat)
  | awaitReady (sid : Nat)
  | generateLocations (sid : Nat)
  | displayHref (sid : Nat) (href : String)
  | displayAt (sid : Nat) (fraction : ℚ)
  | prevPage (sid : Nat)
  | nextPage (sid : Nat)

/-- The book/rendition values captured by the destroyCurrentBook
useCallback (App.tsx line 242: dependency array [book, rendition]).
During a single initialiseBook run this closure is fixed to the values
of the render the run started from; the setBook/setRendition calls made
inside the run do not update it. -/
structure DestroyClosure where
  book : Option Nat
  rendition : Option Nat

/-- App.tsx lines 233-242: destroyCurrentBook.  Destroys the rendition
named by the closure (if any) and nulls the rendition state, then
destroys the book named by the closure (if any) and nulls the book
state. -/
def destroyCurrentBook (cl : DestroyClosure) (st : AppState) : AppState × List Event :=
  let first : AppState × List Event :=
    match cl.rendition with
    | some r => ({ st with rendition := none }, [Event.destroyRendition r])
    | none => (st, [])
  match cl.book with
  | some b => ({ first.1 with book := none }, first.2 ++ [Event.destroyBook b])
  | none => first

/-- App.tsx line 285: the user-facing load error message. -/
def loadErrorMessage : String := "We could not open that EPUB. Please try a different file."

/-- Which awaited step of a load run throws, as decided by the engine;
success carries the navigation tree, the location count reported after
book.ready, and the count produced by locations.generate when it runs. -/
inductive LoadOutcome where
  | epubThrows
  | renderToThrows
  | displayThrows
  | navThrows
  | readyThrows (navToc : List NavItem)
  | generateThrows (navToc : List NavItem)
  | success (navToc : List NavItem) (readyLen : Nat) (genLen : Nat)

/-- App.tsx lines 283-291: the catch block of initialiseBook.  Sets the
error message, clears fileName, toc, progress, chapter and activeHref,
then awaits destroyCurrentBook — the closure captured at run entry. -/
def catchRollback (cl : DestroyClosure) (st : AppState) : AppState × List Event :=
  destroyCurrentBook cl
    { st with error := some loadErrorMessage, fileName := "", toc := [],
              progress := 0, currentChapter := "", activeHref := "" }

/-- App.tsx lines 244-297: initialiseBook.  Clears derived state, awaits
destruction of the session captured in the closure, then constructs the
next book and rendition, applies the font size, publishes the handles
and file name, awaits the initial display, the navigation metadata,
book.ready and (when the location index is empty) index generation; any
throw runs the catch block, and finally clears the loading flag.  Both
teardown points use the destroyCurrentBook closure captured at entry
(the early return when the viewer ref is unattached is not modelled).
Returns (final state, engine event trace, next fresh session id). -/
def initialiseBook (st : AppState) (name : String) (outcome : LoadOutcome) (fresh : Nat) :
    AppState × List Event × Nat :=
  let cl : DestroyClosure := { book := st.book, rendition := st.rendition }
  let st := { st with loading := true, error := none, progress := 0,
                      currentChapter := "", toc := [], activeHref := "" }
  let d := destroyCurrentBook cl st
  match outcome with
  | .epubThrows =>
    let c := catchRollback cl d.1
    ({ c.1 with loading := false }, d.2 ++ c.2, fresh)
  | .renderToThrows =>
    let c := catchRollback cl d.1
    ({ c.1 with loading := false }, d.2 ++ [Event.constructBook fresh] ++ c.2, fresh + 1)
  | .displayThrows =>
    let st2 := { d.1 with book := some fresh, rendition := some fresh, locations := 0,
                          fileName := name }
    let c := catchRollback cl st2
    ({ c.1 with loading := false },
      d.2 ++ [Event.constructBook fresh, Event.constructRendition fresh,
              Event.applyFontSizeTo fresh, Event.displayInitial fresh] ++ c.2,
      fresh + 1)
  | .navThrows =>
    let st2 := { d.1 with book := some fresh, rendition := some fresh, locations := 0,
                          fileName := name }
    let c := catchRollback cl st2
    ({ c.1 with loading := false },
      d.2 ++ [Event.constructBook fresh, Event.constructRendition fresh,
              Event.applyFontSizeTo fresh, Event.displayInitial fresh,
              Event.fetchNav fresh] ++ c.2,
      fresh + 1)
  | .readyThrows navToc =>
    let st2 := { d.1 with book := some fresh, rendition := some fresh, locations := 0,
                          fileName := name, toc := navToc }
    let c := catchRollback cl st2
    ({ c.1 with loading := false },
      d.2 ++ [Event.constructBook fresh, Event.constructRendition fresh,
              Event.applyFontSizeTo fresh, Event.displayInitial fresh,
              Event.fetchNav fresh, Event.awaitReady fresh] ++ c.2,
      fresh + 1)
  | .generateThrows navToc =>
    let st2 := { d.1 with book := some fresh, rendition := some fresh, locations := 0,
                          fileName := name, toc := navToc }
    let c := catchRollback cl st2
    ({ c.1 with loading := false },
      d.2 ++ [Event.constructBook fresh, Event.constructRendition fresh,
              Event.applyFontSizeTo fresh, Event.displayInitial fresh,
              Event.fetchNav fresh, Event.awaitReady fresh,
              Event.generateLocations fresh] ++ c.2,
      fresh + 1)
  | .success navToc readyLen genLen =>
    let st2 := { d.1 with book := some fresh, rendition := some fresh, locations := 0,
                          fileName := name, toc := navToc }
    if readyLen = 0 then
      ({ st2 with locations := genLen, loading := false },
        d.2 ++ [Event.constructBook fresh, Event.constructRendition fresh,
                Event.applyFontSizeTo fresh, Event.displayInitial fresh,
                Event.fetchNav fresh, Event.awaitReady fresh,
                Event.generateLocations fresh],
        fresh + 1)
    else
      ({ st2 with locations := readyLen, loading := false },
        d.2 ++ [Event.constructBook fresh, Event.constructRendition fresh,
                Event.applyFontSizeTo fresh, Event.displayInitial fresh,
                Event.fetchNav fresh, Event.awaitReady fresh],
        fresh + 1)

/-- The book sessions constructed but not yet destroyed after a trace of
engine events, in construction order. -/
def liveBooksAfter (events : List Event) : List Nat :=
  events.foldl
    (fun live e =>
      match e with
      | Event.constructBook s => live ++ [s]
      | Event.destroyBook s => live.erase s
      | _ => live)
    []

/-- Run a sequence of load requests, threading state and fresh session
ids and concatenating the engine traces. -/
def runLoads : AppState → Nat → List (String × LoadOutcome) → AppState × List Event × Nat
  | st, fresh, [] => (st, [], fresh)
  | st, fresh, (name, outcome) :: rest =>
    let r := initialiseBook st name outcome fresh
    let rr := runLoads r.1 r.2.2 rest
    (rr.1, r.2.1 ++ rr.2.1, rr.2.2)

/-! ## Navigation and progress handlers (App.tsx lines 326-362, 400-428) -/

/-- App.tsx lines 326-335: goTo.  No-op without a rendition; otherwise
optimistically publishes the normalized href and asks the rendition to
display it. -/
def goTo (st : AppState) (href : String) : AppState × List Event :=
  match st.rendition with
  | none => (st, [])
  | some r => ({ st with activeHref := normalizeHref (some href) }, [Event.displayHref r href])

/-- App.tsx lines 337-342: goPrevious.  No-op without a rendition. -/
def goPrevious (st : AppState) : AppState × List Event :=
  match st.rendition with
  | none => (st, [])
  | some r => (st, [Event.prevPage r])

/-- App.tsx lines 344-349: goNext.  No-op without a rendition. -/
def goNext (st : AppState) : AppState × List Event :=
  match st.rendition with
  | none => (st, [])
  | some r => (st, [Event.nextPage r])

/-- App.tsx lines 351-362: handleProgressChange.  No-op unless a book, a
rendition and a non-empty location index all exist; otherwise stores the
slider value and displays the position computed from value / 100. -/
def handleProgressChange (st : AppState) (value : ℚ) : AppState × List Event :=
  match st.book, st.rendition with
  | some _, some r =>
    if st.locations = 0 then (st, [])
    else ({ st with progress := value }, [Event.displayAt r (value / 100)])
  | _, _ => (st, [])

/-- App.tsx line 405: location.start of a relocation event. -/
structure RelStart where
  href : Option String
  cfi : String

/-- App.tsx lines 405-422: the relocated handler.  Ignores events with
no start; otherwise normalizes the start href, publishes it as the
active locator, resolves and publishes the chapter title, and — only
when the location index is non-empty — stores the percentage obtained
from the index, rounded to one decimal place, or 0 when non-finite.
pctFromCfi is the number book.locations.percentageFromCfi returns for
the event's start cfi. -/
def onRelocated (st : AppState) (loc : Option RelStart) (pctFromCfi : JsNumber) : AppState :=
  match loc with
  | none => st
  | some start =>
    let href := normalizeHref start.href
    let st := { st with activeHref := href,
                        currentChapter := resolveChapterTitle (some href) (flatten st.toc 0) }
    if st.locations ≠ 0 then
      { st with progress :=
          match pctFromCfi with
          | .finite p => toFixed1 (p * 100)
          | _ => 0 }
    else st

/-! ## Claims about the relocation handler and the guards -/

/-- Claim C6: on a relocation event, when a location index exists, the
stored progress is the index fraction scaled to a percentage and
rounded to one decimal place (a raw fraction of 0.4567 yields 45.7),
and a non-finite fraction yields 0. -/
theorem C6_progress_rounding (st : AppState) (start : RelStart)
    (h : st.locations ≠ 0) :
    (∀ p : ℚ, (onRelocated st (some start) (JsNumber.finite p)).progress = toFixed1 (p * 100)) ∧
    (∀ n : JsNumber, n.isFinite = false → (onRelocated st (some start) n).progress = 0) ∧
    toFixed1 ((4567 : ℚ) / 10000 * 100) = 457 / 10 := by
  refine ⟨?_, ?_, by norm_num [toFixed1]⟩
  · intro p
    simp [onRelocated, h]
  · intro n hn
    cases n with
    | finite p => simp [JsNumber.isFinite] at hn
    | nan => simp [onRelocated, h]
    | posInf => simp [onRelocated, h]
    | negInf => simp [onRelocated, h]

/-- A state with a loaded book whose location index has 1200 entries. -/
def relocStateDemo : AppState :=
  { initialState with book := some 0, rendition := some 0, locations := 1200 }

/-- The relocation start used by the witnesses. -/
def relStartDemo : RelStart := { href := some "chap3.xhtml#section2", cfi := "epubcfi(/6/8!/4/2)" }

/-- Witness for C6: with an index present, a reported fraction of 0.4567
is stored as 45.7, and NaN is stored as 0. -/
theorem C6_progress_rounding_witness :
    relocStateDemo.locations ≠ 0 ∧
    (onRelocated relocStateDemo (some relStartDemo) (JsNumber.finite (4567 / 10000))).progress = 457 / 10 ∧
    (onRelocated relocStateDemo (some relStartDemo) JsNumber.nan).progress = 0 :=
  ⟨by decide,
   ((C6_progress_rounding relocStateDemo relStartDemo (by decide)).1 (4567 / 10000)).trans
     (by norm_num [toFixed1]),
   (C6_progress_rounding relocStateDemo relStartDemo (by decide)).2.1 JsNumber.nan rfl⟩

/-- Claim C9 (frame property): when no location index exists, a
relocation event leaves the stored progress unchanged — it is not reset
to 0 — and updates only the active locator and the chapter title. -/
theorem C9_relocated_frame (st : AppState) (start : RelStart) (pct : JsNumber)
    (h : st.locations = 0) :
    onRelocated st (some start) pct =
      { st with activeHref := normalizeHref start.href,
                currentChapter := resolveChapterTitle (some (normalizeHref start.href))
                  (flatten st.toc 0) } := by
  simp [onRelocated, h]

/-- A state with a loaded book, no location index yet, and a non-zero
stored progress. -/
def frameStateDemo : AppState :=
  { initialState with book := some 0, rendition := some 0, progress := 37 / 10,
                      toc := [NavItem.mk "i1" " Intro " "a.xhtml" []] }

theorem flatten_frameStateDemo_toc :
    flatten [NavItem.mk "i1" " Intro " "a.xhtml" []] 0 =
      [{ id := "i1", label := " Intro ", href := "a.xhtml", subitems := [], depth := 0 }] := by
  simp [flatten]

/-- Witness for C9: with no index, a relocation event leaves progress at
37/10 and updates the active locator and the chapter title. -/
theorem C9_relocated_frame_witness :
    frameStateDemo.locations = 0 ∧
    (onRelocated frameStateDemo (some { href := some "a.xhtml#top", cfi := "cfi" }) JsNumber.nan).progress
      = 37 / 10 ∧
    (onRelocated frameStateDemo (some { href := some "a.xhtml#top", cfi := "cfi" }) JsNumber.nan).activeHref
      = "a.xhtml" ∧
    (onRelocated frameStateDemo (some { href := some "a.xhtml#top", cfi := "cfi" }) JsNumber.nan).currentChapter
      = "Intro" := by
  have h := C9_relocated_frame frameStateDemo { href := some "a.xhtml#top", cfi := "cfi" } JsNumber.nan rfl
  rw [h]
  refine ⟨rfl, rfl, by decide, ?_⟩
  show resolveChapterTitle (some (normalizeHref (some "a.xhtml#top"))) (flatten frameStateDemo.toc 0)
    = "Intro"
  rw [show frameStateDemo.toc = [NavItem.mk "i1" " Intro " "a.xhtml" []] from rfl,
    flatten_frameStateDemo_toc]
  decide

/-- Claim C8: the guarded operations are silent no-ops — next/previous
page with no rendition, and a progress-slider commit with no book, no
rendition, or an empty location index, change no state and make no
engine call. -/
theorem C8_guards_noop :
    (∀ st : AppState, st.rendition = none → goPrevious st = (st, []) ∧ goNext st = (st, [])) ∧
    (∀ (st : AppState) (value : ℚ),
      st.book = none ∨ st.rendition = none ∨ st.locations = 0 →
      handleProgressChange st value = (st, [])) := by
  constructor
  · intro st h
    exact ⟨by simp [goPrevious, h], by simp [goNext, h]⟩
  · intro st value h
    cases hb : st.book with
    | none => simp [handleProgressChange, hb]
    | some b =>
      cases hr : st.rendition with
      | none => simp [handleProgressChange, hb, hr]
      | some r =>
        have hl : st.locations = 0 := by
          rcases h with h | h | h
          · rw [hb] at h; exact absurd h (by simp)
          · rw [hr] at h; exact absurd h (by simp)
          · exact h
        simp [handleProgressChange, hb, hr, hl]

/-- Witness for C8: at the pre-load empty state, previous page, next
page and a slider commit to 50 all return the state unchanged with no
engine call. -/
theorem C8_guards_noop_witness :
    goPrevious initialState = (initialState, []) ∧
    goNext initialState = (initialState, []) ∧
    handleProgressChange initialState 50 = (initialState, []) :=
  ⟨(C8_guards_noop.1 initialState rfl).1,
   (C8_guards_noop.1 initialState rfl).2,
   C8_guards_noop.2 initialState 50 (Or.inl rfl)⟩

/-! ## Claims about the load lifecycle -/

/-- Claim C1 is false of the code (code defect): when no book is loaded
and the initial display of the new book throws, the catch block calls
the destroyCurrentBook closure captured before the new session existed
(its book and rendition are null), so after initialiseBook returns the
partially constructed session 0 is still published in the state — book
and rendition are non-null — and was never destroyed (it is still
live in the trace), even though the error message is set.  The state is
not rolled back to the pre-load empty state. -/
theorem C1_display_failure_not_rolled_back :
    (initialiseBook initialState "book.epub" LoadOutcome.displayThrows 0).1.book = some 0 ∧
    (initialiseBook initialState "book.epub" LoadOutcome.displayThrows 0).1.rendition = some 0 ∧
    (initialiseBook initialState "book.epub" LoadOutcome.displayThrows 0).1.error
      = some loadErrorMessage ∧
    liveBooksAfter (initialiseBook initialState "book.epub" LoadOutcome.displayThrows 0).2.1
      = [0] := by
  refine ⟨rfl, rfl, rfl, rfl⟩

/-- A load sequence: a successful load, then a load whose initial
display throws, then another successful load. -/
def demoLoadSequence : List (String × LoadOutcome) :=
  [("first.epub", LoadOutcome.success [] 0 1200),
   ("second.epub", LoadOutcome.displayThrows),
   ("third.epub", LoadOutcome.success [] 0 1200)]

/-- Claim C2 is false of the code (code defect): in the sequence
success, display-failure, load, the failed load's session 1 is never
destroyed — its catch block re-destroys the already destroyed session 0
captured in the stale closure — and since the state then references no
book, the next load destroys nothing before constructing session 2.
Both 1 and 2 are then live at once, violating the
no-two-concurrent-live-sessions invariant. -/
theorem C2_two_live_sessions_reachable :
    liveBooksAfter (runLoads initialState 0 demoLoadSequence).2.1 = [1, 2] ∧
    (runLoads initialState 0 demoLoadSequence).1.book = some 2 :=
  ⟨rfl, rfl⟩

/-! ## The activeHref invariant (claim C10) -/

/-- The user/engine operations that drive the component: a load request,
a TOC entry activation, a relocation event, the page buttons and a
progress-slider commit. -/
inductive UserOp where
  | load (name : String) (outcome : LoadOutcome)
  | tocClick (href : String)
  | relocated (loc : Option RelStart) (pctFromCfi : JsNumber)
  | prevPage
  | nextPage
  | progressChange (value : ℚ)

/-- One step of the component: dispatch an operation to its handler,
threading the fresh session id. -/
def stepOp (st : AppState) (fresh : Nat) : UserOp → AppState × Nat
  | .load name outcome =>
    ((initialiseBook st name outcome fresh).1, (initialiseBook st name outcome fresh).2.2)
  | .tocClick href => ((goTo st href).1, fresh)
  | .relocated loc pctFromCfi => (onRelocated st loc pctFromCfi, fresh)
  | .prevPage => ((goPrevious st).1, fresh)
  | .nextPage => ((goNext st).1, fresh)
  | .progressChange value => ((handleProgressChange st value).1, fresh)

/-- Run a sequence of operations from a state. -/
def runOps : AppState → Nat → List UserOp → AppState × Nat
  | st, fresh, [] => (st, fresh)
  | st, fresh, op :: rest =>
    let r := stepOp st fresh op
    runOps r.1 r.2 rest

theorem destroyCurrentBook_activeHref (cl : DestroyClosure) (st : AppState) :
    (destroyCurrentBook cl st).1.activeHref = st.activeHref := by
  unfold destroyCurrentBook
  cases cl.rendition <;> cases cl.book <;> simp

theorem catchRollback_activeHref (cl : DestroyClosure) (st : AppState) :
    (catchRollback cl st).1.activeHref = "" := by
  unfold catchRollback
  rw [destroyCurrentBook_activeHref]

theorem initialiseBook_activeHref (st : AppState) (name : String) (outcome : LoadOutcome)
    (fresh : Nat) : (initialiseBook st name outcome fresh).1.activeHref = "" := by
  unfold initialiseBook
  cases outcome with
  | epubThrows => simp [catchRollback_activeHref]
  | renderToThrows => simp [catchRollback_activeHref]
  | displayThrows => simp [catchRollback_activeHref]
  | navThrows => simp [catchRollback_activeHref]
  | readyThrows navToc => simp [catchRollback_activeHref]
  | generateThrows navToc => simp [catchRollback_activeHref]
  | success navToc readyLen genLen =>
    by_cases h : readyLen = 0 <;> simp [h, destroyCurrentBook_activeHref]

theorem onRelocated_activeHref (st : AppState) (start : RelStart) (pctFromCfi : JsNumber) :
    (onRelocated st (some start) pctFromCfi).activeHref = normalizeHref start.href := by
  simp only [onRelocated]
  split <;> simp

theorem stepOp_activeHref_no_hash (st : AppState) (fresh : Nat) (op : UserOp)
    (h : '#' ∉ st.activeHref.data) : '#' ∉ ((stepOp st fresh op).1).activeHref.data := by
  cases op with
  | load name outcome =>
    show '#' ∉ ((initialiseBook st name outcome fresh).1).activeHref.data
    rw [initialiseBook_activeHref]
    simp
  | tocClick href =>
    show '#' ∉ ((goTo st href).1).activeHref.data
    unfold goTo
    cases st.rendition with
    | none => exact h
    | some r => exact normalizeHref_no_hash (some href)
  | relocated loc pctFromCfi =>
    show '#' ∉ (onRelocated st loc pctFromCfi).activeHref.data
    cases loc with
    | none => exact h
    | some start => rw [onRelocated_activeHref]; exact normalizeHref_no_hash start.href
  | prevPage =>
    show '#' ∉ ((goPrevious st).1).activeHref.data
    unfold goPrevious
    cases st.rendition <;> exact h
  | nextPage =>
    show '#' ∉ ((goNext st).1).activeHref.data
    unfold goNext
    cases st.rendition <;> exact h
  | progressChange value =>
    show '#' ∉ ((handleProgressChange st value).1).activeHref.data
    unfold handleProgressChange
    cases st.book with
    | none => exact h
    | some b =>
      cases st.rendition with
      | none => exact h
      | some r =>
        by_cases hl : st.locations = 0
        · simpa [hl] using h
        · simpa [hl] using h

theorem runOps_activeHref_no_hash (ops : List UserOp) :
    ∀ (st : AppState) (fresh : Nat), '#' ∉ st.activeHref.data →
      '#' ∉ ((runOps st fresh ops).1).activeHref.data := by
  induction ops with
  | nil => intro st fresh h; exact h
  | cons op rest ih =>
    intro st fresh h
    exact ih _ _ (stepOp_activeHref_no_hash st fresh op h)

/-- Claim C10 (invariant): starting from the empty initial state, after
any sequence of operations the active-locator state contains no '#'
fragment character — every writer stores either the empty string or a
normalized, fragment-stripped locator. -/
theorem C10_activeHref_no_fragment (ops : List UserOp) :
    '#' ∉ ((runOps initialState 0 ops).1).activeHref.data :=
  runOps_activeHref_no_hash ops initialState 0 (by simp [initialState])

end Readera
